import Mathlib

/-!
Verification of the beat-detection-to-marker pipeline of
`src/python/resolve_bridge.py` (functions `ensure_audio_deps`,
`record_marker`, `op_detect_beats`).

The embedding models Python values directly: floats of the pipeline as ℚ
(timestamps, frame rates, BeatNet rows), Python ints as ℤ, the per-clip
`frame_markers` dict as an insertion-ordered association list, and the
external collaborators (Resolve project/timeline objects, the file system,
the BeatNet / librosa libraries) as explicit inputs: each timeline clip is
a `ClipInput` carrying what the external APIs would return for it,
including the analysis outcome (`Except` error = Python exception).
-/

/-- Marker colors actually passed to `record_marker` ("Red" / "Blue"). -/
inductive Color where
  | Red
  | Blue
deriving DecidableEq

/-- The value stored in the `frame_markers` dict:
`{"color": ..., "name": ..., "note": ...}`. -/
structure MarkerInfo where
  color : Color
  name : String
  note : String
deriving DecidableEq

/-- The `markers_added` dict: `{"beats": 0, "downbeats": 0}`.  Python ints. -/
structure Counters where
  beats : ℤ
  downbeats : ℤ
deriving DecidableEq

/-- The per-clip `frame_markers` dict, keyed by clip-relative frame.
Modelled as an insertion-ordered association list (Python dicts preserve
insertion order; updating an existing key keeps its position). -/
abbrev FrameMarkers := List (ℤ × MarkerInfo)

/-- One entry of `skipped_clips`: `{"name": ..., "reason": ...}`. -/
structure SkipEntry where
  name : String
  reason : String
deriving DecidableEq

/-- The payload of the `success({...})` dict returned by `op_detect_beats`. -/
structure BatchResult where
  markers_added : ℤ
  beats : ℤ
  downbeats : ℤ
  clips_processed : ℕ
  clips_skipped : Option (List SkipEntry)
  engine : String
deriving DecidableEq

/-- Everything the external collaborators report about one timeline item:
its name, the media-pool file path (`None` when absent), whether
`os.path.exists` holds, trim offset and duration, and the outcome of each
analysis library on its file (`Except.error msg` models a raised exception
with message `msg`).  `beatnetOutput` rows are `(time, beat_position)`
pairs as floats; `librosaBeats` is the `beat_times` array (clip-window
relative, before `+= segment_offset`). -/
structure ClipInput where
  name : String
  filePath : Option String
  fileExists : Bool
  sourceOffset : ℤ
  duration : ℤ
  beatnetOutput : Except String (List (ℚ × ℚ))
  librosaBeats : Except String (List ℚ)

/-- Python `int()` applied to a float: truncation toward zero. -/
def truncQ (x : ℚ) : ℤ := if 0 ≤ x then ⌊x⌋ else ⌈x⌉

/-- Python truthiness of the file path: `not file_path` holds for `None`
and for the empty string. -/
def pathMissing : Option String → Bool
  | none => true
  | some s => s.isEmpty

/-- `pat` occurs at the start of the character list. -/
def charsBeginWith : List Char → List Char → Bool
  | [], _ => true
  | _ :: _, [] => false
  | a :: as, b :: bs => a = b && charsBeginWith as bs

/-- `pat` occurs somewhere in the character list. -/
def charsHaveSub (pat : List Char) : List Char → Bool
  | [] => pat.isEmpty
  | c :: rest => charsBeginWith pat (c :: rest) || charsHaveSub pat rest

/-- `pat` is a substring of `s` (structural, kernel-reducible). -/
def strHasSub (s pat : String) : Bool := charsHaveSub pat.data s.data

/-- First value stored under key `f` (Python `dict.get`). -/
def fmGet (fm : FrameMarkers) (f : ℤ) : Option MarkerInfo :=
  match fm with
  | [] => none
  | (k, v) :: rest => if k = f then some v else fmGet rest f

/-- Store `v` under key `f` (Python `dict[f] = v`): overwrite in place if
the key is present, else append at the end. -/
def fmSet (fm : FrameMarkers) (f : ℤ) (v : MarkerInfo) : FrameMarkers :=
  match fm with
  | [] => [(f, v)]
  | (k, w) :: rest => if k = f then (f, v) :: rest else (k, w) :: fmSet rest f v

/-- The error message raised by `ensure_audio_deps` when librosa is missing
(resolve_bridge.py lines 3170-3181). -/
def librosaInstallMessage : String :=
  "Missing required dependency: librosa\n\nPlease install dependencies:\n  pip install librosa\n\nFor accurate beat detection (recommended):\n  pip install \x27numpy<2.0\x27 cython\n  pip install git+https://github.com/CPJKU/madmom.git\n  pip install BeatNet librosa pyaudio\n\nThen set python_path in ~/.config/magic-agent/config.toml:\n  [resolve]\n  python_path = \"~/.magic-agent-venv/bin/python\""

/-- `ensure_audio_deps` (lines 3148-3183): the BeatNet import failure is
caught (non-fatal); a librosa import failure raises `RuntimeError` with the
install message.  Returns whether the BeatNet class is available. -/
def ensure_audio_deps (beatnetAvailable librosaAvailable : Bool) : Except String Bool :=
  let beatnet_class := beatnetAvailable
  if librosaAvailable then .ok beatnet_class
  else .error librosaInstallMessage

/-- Shared tail of `record_marker` after the early returns (lines
3264-3272): bump the counter for the color and store the marker. -/
def finishRecord (frame_markers : FrameMarkers) (counters : Counters)
    (clip_frame : ℤ) (color : Color) (name note : String) :
    FrameMarkers × Counters :=
  let counters1 :=
    if color = Color.Red then { counters with downbeats := counters.downbeats + 1 }
    else { counters with beats := counters.beats + 1 }
  (fmSet frame_markers clip_frame ⟨color, name, note⟩, counters1)

/-- `record_marker` (lines 3255-3272), the marker reconciler.  The Python
function mutates `frame_markers` and `counters`; here both are returned. -/
def record_marker (frame_markers : FrameMarkers) (counters : Counters)
    (clip_frame : ℤ) (color : Color) (name note : String) :
    FrameMarkers × Counters :=
  match fmGet frame_markers clip_frame with
  | some existing =>
    if existing.color = color then (frame_markers, counters)
    else if existing.color = Color.Red ∧ color ≠ Color.Red then (frame_markers, counters)
    else
      let counters1 :=
        if existing.color = Color.Blue ∧ color = Color.Red then
          { counters with beats := max 0 (counters.beats - 1) }
        else counters
      finishRecord frame_markers counters1 clip_frame color name note
  | none => finishRecord frame_markers counters clip_frame color name note

/-- Lines 3316-3326 (identical in the fallback branch, 3367-3377): window
pre-filter against `source_in_sec`/`source_out_sec`, truncation of
`beat_time * fps - source_offset`, and the clip-bounds check.  Returns the
clip-relative frame, or `none` when the event is dropped. -/
def clipFrameOfBeat (fps : ℚ) (sourceOffset clipDuration : ℤ) (beatTime : ℚ) :
    Option ℤ :=
  let sourceInSec : ℚ := sourceOffset / fps
  let sourceOutSec : ℚ := (sourceOffset + clipDuration) / fps
  if beatTime < sourceInSec ∨ sourceOutSec ≤ beatTime then none
  else
    let sourceFrame := beatTime * fps
    let clipFrame := truncQ (sourceFrame - sourceOffset)
    if clipFrame < 0 ∨ clipDuration ≤ clipFrame then none
    else some clipFrame

/-- One iteration of the BeatNet event loop (lines 3315-3347) on the
`(frame_markers, markers_added)` state: `ev = (beat_time, beat_pos)`. -/
def beatnetEvent (fps : ℚ) (sourceOffset clipDuration : ℤ)
    (mark_beats mark_downbeats : Bool) (st : FrameMarkers × Counters)
    (ev : ℚ × ℚ) : FrameMarkers × Counters :=
  match clipFrameOfBeat fps sourceOffset clipDuration ev.1 with
  | none => st
  | some clip_frame =>
    let is_downbeat := truncQ ev.2 = 1
    if is_downbeat ∧ mark_downbeats then
      record_marker st.1 st.2 clip_frame Color.Red "Downbeat" "Bar start"
    else if mark_beats then
      record_marker st.1 st.2 clip_frame Color.Blue "Beat"
        ("Beat " ++ toString (truncQ ev.2))
    else st

/-- One iteration of the librosa fallback event loop (lines 3365-3399):
`ev = (i, beat_time)` from `enumerate(beat_times)`; the loop first shifts
the time by `segment_offset` (= `source_in_sec`), then maps and filters
exactly as the BeatNet loop, and synthesizes `is_downbeat = (i % 4 == 0)`. -/
def fallbackEvent (fps : ℚ) (sourceOffset clipDuration : ℤ) (segmentOffset : ℚ)
    (mark_beats mark_downbeats : Bool) (st : FrameMarkers × Counters)
    (ev : ℕ × ℚ) : FrameMarkers × Counters :=
  let beatTime := ev.2 + segmentOffset
  match clipFrameOfBeat fps sourceOffset clipDuration beatTime with
  | none => st
  | some clip_frame =>
    let is_downbeat := ev.1 % 4 = 0
    if is_downbeat ∧ mark_downbeats then
      record_marker st.1 st.2 clip_frame Color.Red "Downbeat" "Bar start (estimated)"
    else if mark_beats then
      record_marker st.1 st.2 clip_frame Color.Blue "Beat"
        ("Beat " ++ toString (ev.1 % 4 + 1))
    else st

/-- Running batch state: shared `markers_added` counters, `processed_clips`,
`skipped_clips`. -/
structure BatchState where
  counters : Counters
  processed : ℕ
  skipped : List SkipEntry
deriving DecidableEq

/-- The body of the per-clip loop of `op_detect_beats` (lines 3274-3420):
path checks, timing derivation, one of the two analysis branches (with the
zero-duration skip only in the librosa branch), the exception handler
turning analysis errors into skip entries, and the processed counter.
Marker flushing via `item.AddMarker` only logs failures and changes no
state tracked here. -/
def clipStep (usingBeatnet : Bool) (fps : ℚ) (mark_beats mark_downbeats : Bool)
    (st : BatchState) (clip : ClipInput) : BatchState :=
  if pathMissing clip.filePath then
    { st with skipped := st.skipped ++ [⟨clip.name, "no file path"⟩] }
  else if ¬ clip.fileExists then
    { st with skipped := st.skipped ++ [⟨clip.name, "file not found"⟩] }
  else
    let sourceInSec : ℚ := clip.sourceOffset / fps
    let sourceOutSec : ℚ := (clip.sourceOffset + clip.duration) / fps
    if usingBeatnet then
      match clip.beatnetOutput with
      | .error e => { st with skipped := st.skipped ++ [⟨clip.name, e⟩] }
      | .ok rows =>
        let r := rows.foldl
          (beatnetEvent fps clip.sourceOffset clip.duration mark_beats mark_downbeats)
          ([], st.counters)
        { st with counters := r.2, processed := st.processed + 1 }
    else
      if sourceOutSec - sourceInSec ≤ 0 then
        { st with skipped := st.skipped ++ [⟨clip.name, "zero duration"⟩] }
      else
        match clip.librosaBeats with
        | .error e => { st with skipped := st.skipped ++ [⟨clip.name, e⟩] }
        | .ok beat_times =>
          let r := beat_times.enum.foldl
            (fallbackEvent fps clip.sourceOffset clip.duration sourceInSec
              mark_beats mark_downbeats)
            ([], st.counters)
          { st with counters := r.2, processed := st.processed + 1 }

/-- `op_detect_beats` (lines 3211-3431).  `projectOpen` / `timelineActive`
model the external project/timeline lookups; `track` / `track_type` only
feed the NO_CLIPS message; the result is `.error (message, code)` for the
`error(...)` returns and `.ok` of the `success(...)` payload. -/
def op_detect_beats (projectOpen timelineActive : Bool) (fps : ℚ)
    (track : ℤ) (track_type : String) (beatnetAvailable librosaAvailable : Bool)
    (mark_beats mark_downbeats : Bool) (clips : List ClipInput) :
    Except (String × String) BatchResult :=
  if ¬ projectOpen then .error ("No project is open", "NO_PROJECT")
  else if ¬ timelineActive then .error ("No timeline is active", "NO_TIMELINE")
  else if clips.isEmpty then
    .error ("No clips on " ++ track_type ++ " track " ++ toString track, "NO_CLIPS")
  else
    match ensure_audio_deps beatnetAvailable librosaAvailable with
    | .error e => .error (e, "DEPS_FAILED")
    | .ok beatnet_class =>
      let usingBeatnet := beatnet_class
      let st := clips.foldl (clipStep usingBeatnet fps mark_beats mark_downbeats)
        ⟨⟨0, 0⟩, 0, []⟩
      .ok {
        markers_added := st.counters.beats + st.counters.downbeats
        beats := st.counters.beats
        downbeats := st.counters.downbeats
        clips_processed := st.processed
        clips_skipped := if st.skipped.isEmpty then none else some st.skipped
        engine := if usingBeatnet then "BeatNet" else "librosa" }

/-- The `engine` field of a detect-beats result (empty on error). -/
def engineOf : Except (String × String) BatchResult → String
  | .ok r => r.engine
  | .error _ => ""

/-- The `clips_processed` field of a detect-beats result (0 on error). -/
def processedOf : Except (String × String) BatchResult → ℕ
  | .ok r => r.clips_processed
  | .error _ => 0

/-- The `clips_skipped` field of a detect-beats result as a plain list. -/
def skippedOf : Except (String × String) BatchResult → List SkipEntry
  | .ok r => r.clips_skipped.getD []
  | .error _ => []

/-- Claim-side formula of C1 / spec §4.3: truncation toward zero of
`time_seconds * fps`, minus `source_offset_frames`. -/
def clipFrameSpec (fps : ℚ) (sourceOffset : ℤ) (beatTime : ℚ) : ℤ :=
  truncQ (beatTime * fps) - sourceOffset

/-- One reconciler event `(frame, color, name, note)` applied to the
`(frame_markers, counters)` state. -/
def applyEvent (st : FrameMarkers × Counters) (e : ℤ × Color × String × String) :
    FrameMarkers × Counters :=
  record_marker st.1 st.2 e.1 e.2.1 e.2.2.1 e.2.2.2

/-- A whole event sequence pushed through `record_marker`, starting from the
empty frame map and zero counters. -/
def processEvents (events : List (ℤ × Color × String × String)) :
    FrameMarkers × Counters :=
  events.foldl applyEvent ([], ⟨0, 0⟩)

/-- Number of entries of the frame map holding a marker of the given color
(the claim's `len(\x7bf: m for f,m in map.items() if m.color==col\x7d)`). -/
def countColor (fm : FrameMarkers) (col : Color) : ℤ :=
  ((fm.filter (fun p => p.2.color == col)).length : ℤ)

/-- The skip reason `op_detect_beats` records for a clip, `none` when the
clip is processed.  Skip decisions depend only on the clip and the
configuration, never on the accumulated batch state. -/
def clipSkipReason (usingBeatnet : Bool) (fps : ℚ) (clip : ClipInput) :
    Option String :=
  if pathMissing clip.filePath then some "no file path"
  else if ¬ clip.fileExists then some "file not found"
  else if usingBeatnet then
    match clip.beatnetOutput with
    | .error e => some e
    | .ok _ => none
  else if ((clip.sourceOffset : ℚ) + clip.duration) / fps - clip.sourceOffset / fps ≤ 0 then
    some "zero duration"
  else
    match clip.librosaBeats with
    | .error e => some e
    | .ok _ => none

/-- The skip entries contributed by one clip (at most one). -/
def skipEntriesOf (usingBeatnet : Bool) (fps : ℚ) (clip : ClipInput) :
    List SkipEntry :=
  match clipSkipReason usingBeatnet fps clip with
  | some r => [⟨clip.name, r⟩]
  | none => []

/-- Example clip with a readable file and empty analysis output. -/
def exClip1 : ClipInput := ⟨"clip1", some "/a", true, 0, 100, .ok [], .ok []⟩

/-- Example clip whose media-pool file path is absent. -/
def exClip2 : ClipInput := ⟨"clip2", none, true, 0, 100, .ok [], .ok []⟩

/-- Second example clip with a readable file. -/
def exClip3 : ClipInput := ⟨"clip3", some "/c", true, 0, 100, .ok [], .ok []⟩

/-- The 3-clip batch of spec §8 (clip 2 has no file path). -/
def exBatch : List ClipInput := [exClip1, exClip2, exClip3]

/-- A clip whose visible duration is zero frames. -/
def exZeroClip : ClipInput := ⟨"clipZ", some "/z", true, 0, 0, .ok [], .ok []⟩

/-- A zero-duration clip trimmed 48 frames into its source. -/
def exZeroClip48 : ClipInput := ⟨"clipZ", some "/z", true, 48, 0, .ok [], .ok []⟩

/-! ## Frame-map lemmas -/

theorem fmGet_fmSet_self (fm : FrameMarkers) (f : ℤ) (v : MarkerInfo) :
    fmGet (fmSet fm f v) f = some v := by
  induction fm with
  | nil => simp [fmSet, fmGet]
  | cons hd tl ih =>
    obtain ⟨k, w⟩ := hd
    by_cases hk : k = f <;> simp [fmSet, fmGet, hk, ih]

theorem fmSet_of_get_none (fm : FrameMarkers) (f : ℤ) (v : MarkerInfo)
    (h : fmGet fm f = none) : fmSet fm f v = fm ++ [(f, v)] := by
  induction fm with
  | nil => simp [fmSet]
  | cons hd tl ih =>
    obtain ⟨k, w⟩ := hd
    by_cases hk : k = f
    · simp [fmGet, hk] at h
    · simp [fmGet, hk] at h
      simp [fmSet, hk, ih h]

theorem countColor_nil (col : Color) : countColor [] col = 0 := rfl

theorem countColor_cons (k : ℤ) (w : MarkerInfo) (tl : FrameMarkers) (col : Color) :
    countColor ((k, w) :: tl) col =
      (if w.color = col then 1 else 0) + countColor tl col := by
  by_cases hw : w.color = col
  · simp [countColor, List.filter_cons, hw]
    ring
  · simp [countColor, List.filter_cons, hw]

theorem countColor_append (fm1 fm2 : FrameMarkers) (col : Color) :
    countColor (fm1 ++ fm2) col = countColor fm1 col + countColor fm2 col := by
  simp [countColor, List.filter_append]

theorem countColor_fmSet_of_get (fm : FrameMarkers) (f : ℤ) (m v : MarkerInfo)
    (col : Color) (h : fmGet fm f = some m) :
    countColor (fmSet fm f v) col =
      countColor fm col - (if m.color = col then 1 else 0)
        + (if v.color = col then 1 else 0) := by
  induction fm with
  | nil => simp [fmGet] at h
  | cons hd tl ih =>
    obtain ⟨k, w⟩ := hd
    by_cases hk : k = f
    · simp [fmGet, hk] at h
      subst h
      simp [fmSet, hk, countColor_cons]
      ring
    · simp [fmGet, hk] at h
      simp [fmSet, hk, countColor_cons, ih h]
      ring

theorem countColor_pos_of_get (fm : FrameMarkers) (f : ℤ) (m : MarkerInfo)
    (h : fmGet fm f = some m) : 1 ≤ countColor fm m.color := by
  induction fm with
  | nil => simp [fmGet] at h
  | cons hd tl ih =>
    obtain ⟨k, w⟩ := hd
    by_cases hk : k = f
    · simp [fmGet, hk] at h
      simp [countColor, List.filter_cons, h]
    · simp [fmGet, hk] at h
      rw [countColor_cons]
      have h1 := ih h
      have h3 : (0:ℤ) ≤ if w.color = m.color then 1 else 0 := by positivity
      linarith

/-! ## Reconciler invariant lemmas -/

theorem record_marker_counts (fm : FrameMarkers) (c : Counters) (f : ℤ)
    (col : Color) (nm nt : String)
    (hR : countColor fm Color.Red = c.downbeats)
    (hB : countColor fm Color.Blue = c.beats) :
    countColor (record_marker fm c f col nm nt).1 Color.Red =
        (record_marker fm c f col nm nt).2.downbeats ∧
      countColor (record_marker fm c f col nm nt).1 Color.Blue =
        (record_marker fm c f col nm nt).2.beats := by
  rcases hget : fmGet fm f with _ | m
  · cases col <;>
      simp [record_marker, hget, finishRecord, fmSet_of_get_none fm f _ hget,
        countColor_append, countColor_cons, countColor_nil, hR, hB]
  · by_cases hmc : m.color = col
    · simp [record_marker, hget, hmc, hR, hB]
    · cases hm : m.color <;> cases hc : col
      · exact absurd (hm.trans hc.symm) hmc
      · simp [record_marker, hget, hm, hc, hR, hB]
      · have hblue : 1 ≤ countColor fm Color.Blue := by
          have hpos := countColor_pos_of_get fm f m hget
          rwa [hm] at hpos
        simp [record_marker, hget, hm, hc, finishRecord]
        constructor
        · rw [countColor_fmSet_of_get fm f m _ Color.Red hget, hm]
          simp [hR]
        · rw [countColor_fmSet_of_get fm f m _ Color.Blue hget, hm]
          simp [hB]
          omega
      · exact absurd (hm.trans hc.symm) hmc

theorem foldl_applyEvent_counts (events : List (ℤ × Color × String × String)) :
    ∀ st : FrameMarkers × Counters,
      countColor st.1 Color.Red = st.2.downbeats →
      countColor st.1 Color.Blue = st.2.beats →
      countColor (events.foldl applyEvent st).1 Color.Red =
          (events.foldl applyEvent st).2.downbeats ∧
        countColor (events.foldl applyEvent st).1 Color.Blue =
          (events.foldl applyEvent st).2.beats := by
  induction events with
  | nil => exact fun st hR hB => ⟨hR, hB⟩
  | cons e rest ih =>
    intro st hR hB
    have step := record_marker_counts st.1 st.2 e.1 e.2.1 e.2.2.1 e.2.2.2 hR hB
    simpa [List.foldl_cons, applyEvent] using
      ih (applyEvent st e) (by simpa [applyEvent] using step.1)
        (by simpa [applyEvent] using step.2)

/-! ## Claim theorems C1-C4 -/

/-- C1: for every beat event with nonnegative timestamp and positive frame
rate, the BeatNet/fallback mapping code (window pre-filter, truncation,
bounds check; lines 3315-3326) retains the event exactly when the
clip-relative frame `truncQ(time_seconds * fps) - source_offset_frames`
lies in `[0, duration_frames)`, and then yields that frame; in particular
at fps=24, offset=48, duration=96 an event at 3.0 s is retained at clip
frame 24 and an event at 1.0 s is dropped. -/
theorem C1_time_mapping (fps : ℚ) (sourceOffset clipDuration : ℤ)
    (beatTime : ℚ) (hfps : 0 < fps) (ht : 0 ≤ beatTime) :
    (clipFrameOfBeat fps sourceOffset clipDuration beatTime =
      if 0 ≤ clipFrameSpec fps sourceOffset beatTime ∧
          clipFrameSpec fps sourceOffset beatTime < clipDuration
        then some (clipFrameSpec fps sourceOffset beatTime) else none) ∧
    clipFrameOfBeat 24 48 96 3 = some 24 ∧
    clipFrameOfBeat 24 48 96 1 = none := by
  refine ⟨?_, by rw [clipFrameOfBeat]; norm_num [truncQ], by rw [clipFrameOfBeat]; norm_num⟩
  have hx : 0 ≤ beatTime * fps := mul_nonneg ht hfps.le
  have hspec : clipFrameSpec fps sourceOffset beatTime = ⌊beatTime * fps⌋ - sourceOffset := by
    rw [clipFrameSpec, truncQ, if_pos hx]
  rw [clipFrameOfBeat]
  by_cases hlo : beatTime < (sourceOffset : ℚ) / fps
  · have h1 : beatTime * fps < (sourceOffset : ℚ) := (lt_div_iff₀ hfps).mp hlo
    have h2 : ⌊beatTime * fps⌋ < sourceOffset := Int.floor_lt.mpr h1
    rw [if_pos (Or.inl hlo), if_neg]
    rw [hspec]
    omega
  · by_cases hhi : ((sourceOffset : ℚ) + clipDuration) / fps ≤ beatTime
    · have h1 : (sourceOffset : ℚ) + clipDuration ≤ beatTime * fps :=
        (div_le_iff₀ hfps).mp hhi
      have h2 : sourceOffset + clipDuration ≤ ⌊beatTime * fps⌋ := by
        rw [Int.le_floor]
        push_cast
        exact h1
      rw [if_pos (Or.inr hhi), if_neg]
      rw [hspec]
      omega
    · push_neg at hlo hhi
      have h1 : (sourceOffset : ℚ) ≤ beatTime * fps := by
        rw [div_le_iff₀ hfps] at hlo
        linarith
      have h2 : beatTime * fps < (sourceOffset : ℚ) + clipDuration := by
        rw [lt_div_iff₀ hfps] at hhi
        linarith
      have hfl1 : sourceOffset ≤ ⌊beatTime * fps⌋ := Int.le_floor.mpr h1
      have hfl2 : ⌊beatTime * fps⌋ < sourceOffset + clipDuration := by
        rw [Int.floor_lt]
        push_cast
        exact h2
      have htr : truncQ (beatTime * fps - (sourceOffset : ℚ)) =
          ⌊beatTime * fps⌋ - sourceOffset := by
        rw [truncQ, if_pos (by linarith), Int.floor_sub_int]
      rw [if_neg (by push_neg; exact ⟨hlo, hhi⟩)]
      simp only [htr]
      rw [if_neg (by omega), if_pos (by rw [hspec]; omega), hspec]

/-- Witness for C1 at fps=24, offset=48, duration=96, time=3.0. -/
theorem C1_time_mapping_witness :
    (0:ℚ) < 24 ∧ (0:ℚ) ≤ 3 ∧
    (clipFrameOfBeat 24 48 96 3 =
      if 0 ≤ clipFrameSpec 24 48 3 ∧ clipFrameSpec 24 48 3 < 96
        then some (clipFrameSpec 24 48 3) else none) :=
  ⟨by norm_num, by norm_num,
    (C1_time_mapping 24 48 96 3 (by norm_num) (by norm_num)).1⟩

/-- C2: starting from the empty frame map and zero counters, after any
finite sequence of `record_marker` calls the number of Red entries equals
`counters.downbeats` and the number of Blue entries equals
`counters.beats`. -/
theorem C2_counter_consistency (events : List (ℤ × Color × String × String)) :
    countColor (processEvents events).1 Color.Red =
        (processEvents events).2.downbeats ∧
      countColor (processEvents events).1 Color.Blue =
        (processEvents events).2.beats := by
  exact foldl_applyEvent_counts events ([], ⟨0, 0⟩) rfl rfl

/-- C3: from the empty state, (frame 10, Blue) then (frame 10, Red) leaves
exactly the single entry Red at frame 10 with downbeats = 1 and beats = 0,
and likewise in the reverse order. -/
theorem C3_reconciliation_precedence :
    processEvents
        [(10, Color.Blue, "Beat", "Beat 2"),
         (10, Color.Red, "Downbeat", "Bar start")] =
      ([(10, ⟨Color.Red, "Downbeat", "Bar start"⟩)], ⟨0, 1⟩) ∧
    processEvents
        [(10, Color.Red, "Downbeat", "Bar start"),
         (10, Color.Blue, "Beat", "Beat 2")] =
      ([(10, ⟨Color.Red, "Downbeat", "Bar start"⟩)], ⟨0, 1⟩) := by
  constructor <;> rfl

/-- C4: `record_marker` is idempotent: applying the same
(frame, color, name, note) event twice yields the same frame map and
counters as applying it once, for every starting state. -/
theorem C4_reconciliation_idempotent (fm : FrameMarkers) (c : Counters)
    (f : ℤ) (col : Color) (nm nt : String) :
    record_marker (record_marker fm c f col nm nt).1
        (record_marker fm c f col nm nt).2 f col nm nt =
      record_marker fm c f col nm nt := by
  rcases hget : fmGet fm f with _ | m
  · simp [record_marker, hget, finishRecord, fmGet_fmSet_self]
  · by_cases hmc : m.color = col
    · simp [record_marker, hget, hmc]
    · cases hm : m.color <;> cases hc : col
      · exact absurd (hm.trans hc.symm) hmc
      · simp [record_marker, hget, hm, hc]
      · simp [record_marker, hget, hm, hc, finishRecord, fmGet_fmSet_self]
      · exact absurd (hm.trans hc.symm) hmc

/-! ## Claim theorems C5 and C10 (per-event behavior) -/

/-- C5: in the librosa fallback loop the i-th detected beat (0-indexed) is
synthesized as a downbeat exactly when `i % 4 == 0`; with both marker
flags on, a retained event is recorded Red/"Downbeat" with the
"estimated" note when `i % 4 == 0` and Blue/"Beat" otherwise.  On the
9-beat input at times 0..8 s (fps=1, untrimmed clip of 100 frames) the
events at positions 0, 4, 8 become Red markers with note
"Bar start (estimated)" (which contains "estimated") and the remaining
six become Blue markers, with counters downbeats=3, beats=6. -/
theorem C5_fallback_downbeat_synthesis :
    (∀ (fps : ℚ) (sourceOffset clipDuration : ℤ) (segmentOffset : ℚ)
        (st : FrameMarkers × Counters) (i : ℕ) (t : ℚ) (cf : ℤ),
      clipFrameOfBeat fps sourceOffset clipDuration (t + segmentOffset) = some cf →
      fallbackEvent fps sourceOffset clipDuration segmentOffset true true st (i, t) =
        if i % 4 = 0 then
          record_marker st.1 st.2 cf Color.Red "Downbeat" "Bar start (estimated)"
        else
          record_marker st.1 st.2 cf Color.Blue "Beat"
            ("Beat " ++ toString (i % 4 + 1))) ∧
    ([(0:ℚ),1,2,3,4,5,6,7,8].enum.foldl (fallbackEvent 1 0 100 0 true true)
        ([], ⟨0, 0⟩) =
      ([(0, ⟨Color.Red, "Downbeat", "Bar start (estimated)"⟩),
        (1, ⟨Color.Blue, "Beat", "Beat 2"⟩),
        (2, ⟨Color.Blue, "Beat", "Beat 3"⟩),
        (3, ⟨Color.Blue, "Beat", "Beat 4"⟩),
        (4, ⟨Color.Red, "Downbeat", "Bar start (estimated)"⟩),
        (5, ⟨Color.Blue, "Beat", "Beat 2"⟩),
        (6, ⟨Color.Blue, "Beat", "Beat 3"⟩),
        (7, ⟨Color.Blue, "Beat", "Beat 4"⟩),
        (8, ⟨Color.Red, "Downbeat", "Bar start (estimated)"⟩)], ⟨6, 3⟩)) ∧
    strHasSub "Bar start (estimated)" "estimated" = true := by
  refine ⟨?_, ?_, by decide⟩
  · intro fps sourceOffset clipDuration segmentOffset st i t cf hcf
    by_cases hi : i % 4 = 0 <;> simp [fallbackEvent, hcf, hi]
  · have h0 : clipFrameOfBeat 1 0 100 0 = some 0 := by
      rw [clipFrameOfBeat]; norm_num [truncQ]
    have h1 : clipFrameOfBeat 1 0 100 1 = some 1 := by
      rw [clipFrameOfBeat]; norm_num [truncQ]
    have h2 : clipFrameOfBeat 1 0 100 2 = some 2 := by
      rw [clipFrameOfBeat]; norm_num [truncQ]
    have h3 : clipFrameOfBeat 1 0 100 3 = some 3 := by
      rw [clipFrameOfBeat]; norm_num [truncQ]
    have h4 : clipFrameOfBeat 1 0 100 4 = some 4 := by
      rw [clipFrameOfBeat]; norm_num [truncQ]
    have h5 : clipFrameOfBeat 1 0 100 5 = some 5 := by
      rw [clipFrameOfBeat]; norm_num [truncQ]
    have h6 : clipFrameOfBeat 1 0 100 6 = some 6 := by
      rw [clipFrameOfBeat]; norm_num [truncQ]
    have h7 : clipFrameOfBeat 1 0 100 7 = some 7 := by
      rw [clipFrameOfBeat]; norm_num [truncQ]
    have h8 : clipFrameOfBeat 1 0 100 8 = some 8 := by
      rw [clipFrameOfBeat]; norm_num [truncQ]
    have henum : ([(0:ℚ),1,2,3,4,5,6,7,8].enum) =
        [(0, (0:ℚ)), (1, 1), (2, 2), (3, 3), (4, 4), (5, 5), (6, 6), (7, 7),
         (8, 8)] := rfl
    rw [henum]
    simp only [List.foldl_cons, List.foldl_nil, fallbackEvent, add_zero,
      h0, h1, h2, h3, h4, h5, h6, h7, h8]
    norm_num [record_marker, finishRecord, fmGet, fmSet]
    decide

/-- Witness for the general part of C5 at i=2, t=2 s. -/
theorem C5_fallback_downbeat_synthesis_witness :
    clipFrameOfBeat 1 0 100 ((2:ℚ) + 0) = some 2 ∧
    fallbackEvent 1 0 100 0 true true ([], ⟨0, 0⟩) (2, 2) =
      if 2 % 4 = 0 then
        record_marker ([] : FrameMarkers) ⟨0, 0⟩ 2 Color.Red "Downbeat"
          "Bar start (estimated)"
      else
        record_marker ([] : FrameMarkers) ⟨0, 0⟩ 2 Color.Blue "Beat"
          ("Beat " ++ toString (2 % 4 + 1)) := by
  have hcf : clipFrameOfBeat 1 0 100 ((2:ℚ) + 0) = some 2 := by
    rw [clipFrameOfBeat]; norm_num [truncQ]
  exact ⟨hcf,
    C5_fallback_downbeat_synthesis.1 1 0 100 0 ([], ⟨0, 0⟩) 2 2 2 hcf⟩

/-- C10 (implicit): in the BeatNet path a downbeat event (beat position 1)
whose frame survives the window/bounds filter is not dropped when
`mark_downbeats` is false and `mark_beats` is true: it falls through the
`elif mark_beats` branch and is recorded as a Blue marker named "Beat"
(note "Beat 1"). -/
theorem C10_downbeat_reclassified_as_beat (fps : ℚ)
    (sourceOffset clipDuration : ℤ) (st : FrameMarkers × Counters)
    (beatTime beatPos : ℚ) (clip_frame : ℤ)
    (hframe : clipFrameOfBeat fps sourceOffset clipDuration beatTime =
      some clip_frame)
    (hpos : truncQ beatPos = 1) :
    beatnetEvent fps sourceOffset clipDuration true false st
        (beatTime, beatPos) =
      record_marker st.1 st.2 clip_frame Color.Blue "Beat" "Beat 1" := by
  have hnote : "Beat " ++ toString (1:ℤ) = "Beat 1" := by decide
  simp [beatnetEvent, hframe, hpos, hnote]

/-- Witness for C10 at fps=1, untrimmed 100-frame clip, a downbeat at 5 s. -/
theorem C10_downbeat_reclassified_as_beat_witness :
    clipFrameOfBeat 1 0 100 5 = some 5 ∧ truncQ 1 = 1 ∧
    beatnetEvent 1 0 100 true false ([], ⟨0, 0⟩) (5, 1) =
      record_marker ([] : FrameMarkers) ⟨0, 0⟩ 5 Color.Blue "Beat" "Beat 1" := by
  have hcf : clipFrameOfBeat 1 0 100 5 = some 5 := by
    rw [clipFrameOfBeat]; norm_num [truncQ]
  have hpos : truncQ 1 = 1 := by decide
  exact ⟨hcf, hpos,
    C10_downbeat_reclassified_as_beat 1 0 100 ([], ⟨0, 0⟩) 5 1 5 hcf hpos⟩

/-! ## Batch-loop lemmas -/

theorem clipStep_skipped (u : Bool) (fps : ℚ) (mB mD : Bool) (st : BatchState)
    (clip : ClipInput) :
    (clipStep u fps mB mD st clip).skipped =
      st.skipped ++ skipEntriesOf u fps clip := by
  unfold clipStep skipEntriesOf clipSkipReason
  by_cases h1 : pathMissing clip.filePath
  · simp [h1]
  · by_cases h2 : clip.fileExists
    · by_cases hu : u
      · rcases hbo : clip.beatnetOutput with e | rows <;> simp [h1, h2, hu, hbo]
      · by_cases hz : ((clip.sourceOffset : ℚ) + clip.duration) / fps -
            clip.sourceOffset / fps ≤ 0
        · simp [h1, h2, hu, hz]
        · rcases hlb : clip.librosaBeats with e | ts <;>
            simp [h1, h2, hu, hz, hlb]
    · simp [h1, h2]

theorem clipStep_processed (u : Bool) (fps : ℚ) (mB mD : Bool) (st : BatchState)
    (clip : ClipInput) :
    (clipStep u fps mB mD st clip).processed =
      st.processed + (if (clipSkipReason u fps clip).isNone then 1 else 0) := by
  unfold clipStep clipSkipReason
  by_cases h1 : pathMissing clip.filePath
  · simp [h1]
  · by_cases h2 : clip.fileExists
    · by_cases hu : u
      · rcases hbo : clip.beatnetOutput with e | rows <;> simp [h1, h2, hu, hbo]
      · by_cases hz : ((clip.sourceOffset : ℚ) + clip.duration) / fps -
            clip.sourceOffset / fps ≤ 0
        · simp [h1, h2, hu, hz]
        · rcases hlb : clip.librosaBeats with e | ts <;>
            simp [h1, h2, hu, hz, hlb]
    · simp [h1, h2]

theorem detect_foldl_skipped (u : Bool) (fps : ℚ) (mB mD : Bool)
    (clips : List ClipInput) :
    ∀ st : BatchState,
      (clips.foldl (clipStep u fps mB mD) st).skipped =
        st.skipped ++ clips.flatMap (skipEntriesOf u fps) := by
  induction clips with
  | nil => intro st; simp
  | cons c rest ih =>
    intro st
    simp only [List.foldl_cons, List.flatMap_cons]
    rw [ih, clipStep_skipped, List.append_assoc]

theorem detect_foldl_processed (u : Bool) (fps : ℚ) (mB mD : Bool)
    (clips : List ClipInput) :
    ∀ st : BatchState,
      (clips.foldl (clipStep u fps mB mD) st).processed =
        st.processed + clips.countP (fun c => (clipSkipReason u fps c).isNone) := by
  induction clips with
  | nil => intro st; simp
  | cons c rest ih =>
    intro st
    simp only [List.foldl_cons, List.countP_cons]
    rw [ih, clipStep_processed]
    rcases h : clipSkipReason u fps c with _ | r <;> simp [h] <;> omega

theorem skipEntriesOf_length (u : Bool) (fps : ℚ) (clip : ClipInput) :
    (skipEntriesOf u fps clip).length =
      if (clipSkipReason u fps clip).isNone then 0 else 1 := by
  rcases h : clipSkipReason u fps clip with _ | r <;> simp [skipEntriesOf, h]

theorem flatMap_skipEntriesOf_length (u : Bool) (fps : ℚ)
    (clips : List ClipInput) :
    (clips.flatMap (skipEntriesOf u fps)).length +
      clips.countP (fun c => (clipSkipReason u fps c).isNone) = clips.length := by
  induction clips with
  | nil => simp
  | cons c rest ih =>
    rw [List.flatMap_cons, List.countP_cons, List.length_append,
      List.length_cons, skipEntriesOf_length]
    generalize hA : (rest.flatMap (skipEntriesOf u fps)).length = A at ih ⊢
    rcases h : clipSkipReason u fps c with _ | r <;> simp [h] <;> omega

theorem getD_isEmpty_none (l : List SkipEntry) :
    (if l.isEmpty then (none : Option (List SkipEntry)) else some l).getD [] = l := by
  cases l <;> simp

theorem op_detect_beats_ok (pO tA : Bool) (fps : ℚ) (track : ℤ)
    (ttype : String) (bA mB mD : Bool) (clips : List ClipInput)
    (hp : pO = true) (ht : tA = true) (hne : clips ≠ []) :
    op_detect_beats pO tA fps track ttype bA true mB mD clips =
      .ok {
        markers_added :=
          (clips.foldl (clipStep bA fps mB mD) ⟨⟨0, 0⟩, 0, []⟩).counters.beats +
          (clips.foldl (clipStep bA fps mB mD) ⟨⟨0, 0⟩, 0, []⟩).counters.downbeats
        beats := (clips.foldl (clipStep bA fps mB mD) ⟨⟨0, 0⟩, 0, []⟩).counters.beats
        downbeats :=
          (clips.foldl (clipStep bA fps mB mD) ⟨⟨0, 0⟩, 0, []⟩).counters.downbeats
        clips_processed :=
          (clips.foldl (clipStep bA fps mB mD) ⟨⟨0, 0⟩, 0, []⟩).processed
        clips_skipped :=
          if (clips.foldl (clipStep bA fps mB mD) ⟨⟨0, 0⟩, 0, []⟩).skipped.isEmpty
            then none
            else some (clips.foldl (clipStep bA fps mB mD) ⟨⟨0, 0⟩, 0, []⟩).skipped
        engine := if bA then "BeatNet" else "librosa" } := by
  subst hp ht
  have hcl : clips.isEmpty = false := by
    cases clips
    · exact absurd rfl hne
    · rfl
  simp [op_detect_beats, ensure_audio_deps, hcl]

theorem skippedOf_op (pO tA : Bool) (fps : ℚ) (track : ℤ) (ttype : String)
    (bA mB mD : Bool) (clips : List ClipInput)
    (hp : pO = true) (ht : tA = true) (hne : clips ≠ []) :
    skippedOf (op_detect_beats pO tA fps track ttype bA true mB mD clips) =
      clips.flatMap (skipEntriesOf bA fps) := by
  rw [op_detect_beats_ok pO tA fps track ttype bA mB mD clips hp ht hne]
  simp only [skippedOf]
  rw [getD_isEmpty_none, detect_foldl_skipped]
  simp

theorem processedOf_op (pO tA : Bool) (fps : ℚ) (track : ℤ) (ttype : String)
    (bA mB mD : Bool) (clips : List ClipInput)
    (hp : pO = true) (ht : tA = true) (hne : clips ≠ []) :
    processedOf (op_detect_beats pO tA fps track ttype bA true mB mD clips) =
      clips.countP (fun c => (clipSkipReason bA fps c).isNone) := by
  rw [op_detect_beats_ok pO tA fps track ttype bA mB mD clips hp ht hne]
  simp only [processedOf]
  rw [detect_foldl_processed]
  simp

theorem engineOf_op (pO tA : Bool) (fps : ℚ) (track : ℤ) (ttype : String)
    (bA mB mD : Bool) (clips : List ClipInput)
    (hp : pO = true) (ht : tA = true) (hne : clips ≠ []) :
    engineOf (op_detect_beats pO tA fps track ttype bA true mB mD clips) =
      if bA then "BeatNet" else "librosa" := by
  rw [op_detect_beats_ok pO tA fps track ttype bA mB mD clips hp ht hne]
  rfl

theorem processed_add_skipped (pO tA : Bool) (fps : ℚ) (track : ℤ)
    (ttype : String) (bA mB mD : Bool) (clips : List ClipInput)
    (hp : pO = true) (ht : tA = true) (hne : clips ≠ []) :
    processedOf (op_detect_beats pO tA fps track ttype bA true mB mD clips) +
        (skippedOf (op_detect_beats pO tA fps track ttype bA true mB mD clips)).length =
      clips.length := by
  rw [processedOf_op pO tA fps track ttype bA mB mD clips hp ht hne,
    skippedOf_op pO tA fps track ttype bA mB mD clips hp ht hne]
  have hlen := flatMap_skipEntriesOf_length bA fps clips
  omega

/-! ## Claim theorems C6-C9 -/

/-- C6: with librosa available, every clip of the batch is accounted for
(processed + skipped = total, so no clip's failure aborts the others), a
clip with a falsy file path is skipped with reason "no file path", a clip
whose file does not exist on disk is skipped with reason "file not found",
and an analysis exception (from BeatNet, or from librosa once the
zero-duration guard has passed) is caught and recorded as a skip entry
whose reason is the exception message; the final result carries
`clips_processed` and `clips_skipped` together. -/
theorem C6_batch_isolation (pO tA : Bool) (fps : ℚ) (track : ℤ)
    (ttype : String) (bA mB mD : Bool) (clips : List ClipInput)
    (hp : pO = true) (ht : tA = true) (hne : clips ≠ []) :
    processedOf (op_detect_beats pO tA fps track ttype bA true mB mD clips) +
        (skippedOf (op_detect_beats pO tA fps track ttype bA true mB mD clips)).length =
      clips.length ∧
    (∀ c ∈ clips, pathMissing c.filePath = true →
      (⟨c.name, "no file path"⟩ : SkipEntry) ∈
        skippedOf (op_detect_beats pO tA fps track ttype bA true mB mD clips)) ∧
    (∀ c ∈ clips, pathMissing c.filePath = false → c.fileExists = false →
      (⟨c.name, "file not found"⟩ : SkipEntry) ∈
        skippedOf (op_detect_beats pO tA fps track ttype bA true mB mD clips)) ∧
    (∀ c ∈ clips, ∀ msg : String, pathMissing c.filePath = false →
      c.fileExists = true → bA = true → c.beatnetOutput = .error msg →
      (⟨c.name, msg⟩ : SkipEntry) ∈
        skippedOf (op_detect_beats pO tA fps track ttype bA true mB mD clips)) ∧
    (∀ c ∈ clips, ∀ msg : String, pathMissing c.filePath = false →
      c.fileExists = true → bA = false →
      ¬ (((c.sourceOffset : ℚ) + c.duration) / fps - c.sourceOffset / fps ≤ 0) →
      c.librosaBeats = .error msg →
      (⟨c.name, msg⟩ : SkipEntry) ∈
        skippedOf (op_detect_beats pO tA fps track ttype bA true mB mD clips)) := by
  refine ⟨processed_add_skipped pO tA fps track ttype bA mB mD clips hp ht hne,
    ?_, ?_, ?_, ?_⟩
  · intro c hc hpath
    rw [skippedOf_op pO tA fps track ttype bA mB mD clips hp ht hne]
    exact List.mem_flatMap.mpr
      ⟨c, hc, by simp [skipEntriesOf, clipSkipReason, hpath]⟩
  · intro c hc hpath hex
    rw [skippedOf_op pO tA fps track ttype bA mB mD clips hp ht hne]
    exact List.mem_flatMap.mpr
      ⟨c, hc, by simp [skipEntriesOf, clipSkipReason, hpath, hex]⟩
  · intro c hc msg hpath hex hba hbo
    subst hba
    rw [skippedOf_op pO tA fps track ttype true mB mD clips hp ht hne]
    exact List.mem_flatMap.mpr
      ⟨c, hc, by simp [skipEntriesOf, clipSkipReason, hpath, hex, hbo]⟩
  · intro c hc msg hpath hex hba hz hlb
    subst hba
    rw [skippedOf_op pO tA fps track ttype false mB mD clips hp ht hne]
    exact List.mem_flatMap.mpr
      ⟨c, hc, by simp [skipEntriesOf, clipSkipReason, hpath, hex, hz, hlb]⟩

/-- Witness for C6 on the 3-clip batch of spec §8 (fallback engine,
clip 2 lacking a file path). -/
theorem C6_batch_isolation_witness :
    (true = true) ∧ exBatch ≠ [] ∧
    (processedOf (op_detect_beats true true 1 1 "audio" false true true true exBatch) +
        (skippedOf (op_detect_beats true true 1 1 "audio" false true true true exBatch)).length =
      exBatch.length ∧
    (∀ c ∈ exBatch, pathMissing c.filePath = true →
      (⟨c.name, "no file path"⟩ : SkipEntry) ∈
        skippedOf (op_detect_beats true true 1 1 "audio" false true true true exBatch)) ∧
    (∀ c ∈ exBatch, pathMissing c.filePath = false → c.fileExists = false →
      (⟨c.name, "file not found"⟩ : SkipEntry) ∈
        skippedOf (op_detect_beats true true 1 1 "audio" false true true true exBatch)) ∧
    (∀ c ∈ exBatch, ∀ msg : String, pathMissing c.filePath = false →
      c.fileExists = true → false = true → c.beatnetOutput = .error msg →
      (⟨c.name, msg⟩ : SkipEntry) ∈
        skippedOf (op_detect_beats true true 1 1 "audio" false true true true exBatch)) ∧
    (∀ c ∈ exBatch, ∀ msg : String, pathMissing c.filePath = false →
      c.fileExists = true → false = false →
      ¬ (((c.sourceOffset : ℚ) + c.duration) / 1 - c.sourceOffset / 1 ≤ 0) →
      c.librosaBeats = .error msg →
      (⟨c.name, msg⟩ : SkipEntry) ∈
        skippedOf (op_detect_beats true true 1 1 "audio" false true true true exBatch))) :=
  ⟨rfl, by simp [exBatch],
    C6_batch_isolation true true 1 1 "audio" false true true exBatch rfl rfl
      (by simp [exBatch])⟩

/-- C7: with librosa unavailable the whole operation fails with the single
top-level error (librosa install message, "DEPS_FAILED"); the message names
the missing dependency ("librosa") and the remedy ("pip install librosa");
the failure is identical for every nonempty batch, so it happens before any
clip is analyzed, skipped, or given markers; and when only BeatNet is
unavailable the operation succeeds, reports the fallback engine, and still
accounts for every clip. -/
theorem C7_fatal_dependency_check (pO tA : Bool) (fps : ℚ) (track : ℤ)
    (ttype : String) (bA mB mD : Bool) (clips : List ClipInput)
    (hp : pO = true) (ht : tA = true) (hne : clips ≠ []) :
    op_detect_beats pO tA fps track ttype bA false mB mD clips =
        .error (librosaInstallMessage, "DEPS_FAILED") ∧
    strHasSub librosaInstallMessage "librosa" = true ∧
    strHasSub librosaInstallMessage "pip install librosa" = true ∧
    (∀ clips2 : List ClipInput, clips2 ≠ [] →
      op_detect_beats pO tA fps track ttype bA false mB mD clips2 =
        .error (librosaInstallMessage, "DEPS_FAILED")) ∧
    (∃ r, op_detect_beats pO tA fps track ttype false true mB mD clips =
      Except.ok r) ∧
    engineOf (op_detect_beats pO tA fps track ttype false true mB mD clips) =
      "librosa" ∧
    processedOf (op_detect_beats pO tA fps track ttype false true mB mD clips) +
        (skippedOf (op_detect_beats pO tA fps track ttype false true mB mD clips)).length =
      clips.length := by
  subst hp ht
  have herr : ∀ cl : List ClipInput, cl ≠ [] →
      op_detect_beats true true fps track ttype bA false mB mD cl =
        .error (librosaInstallMessage, "DEPS_FAILED") := by
    intro cl hcl
    have hclE : cl.isEmpty = false := by
      cases cl
      · exact absurd rfl hcl
      · rfl
    simp [op_detect_beats, ensure_audio_deps, hclE]
  refine ⟨herr clips hne, by decide, by decide, herr,
    ⟨_, op_detect_beats_ok true true fps track ttype false mB mD clips rfl rfl hne⟩,
    ?_, processed_add_skipped true true fps track ttype false mB mD clips rfl rfl hne⟩
  rw [engineOf_op true true fps track ttype false mB mD clips rfl rfl hne]
  rfl

/-- Witness for C7 on a concrete 1-clip batch. -/
theorem C7_fatal_dependency_check_witness :
    (true = true) ∧ ([exClip1] : List ClipInput) ≠ [] ∧
    (op_detect_beats true true 24 1 "audio" true false false true [exClip1] =
        .error (librosaInstallMessage, "DEPS_FAILED") ∧
      strHasSub librosaInstallMessage "librosa" = true ∧
      strHasSub librosaInstallMessage "pip install librosa" = true ∧
      (∀ clips2 : List ClipInput, clips2 ≠ [] →
        op_detect_beats true true 24 1 "audio" true false false true clips2 =
          .error (librosaInstallMessage, "DEPS_FAILED")) ∧
      (∃ r, op_detect_beats true true 24 1 "audio" false true false true [exClip1] =
        Except.ok r) ∧
      engineOf (op_detect_beats true true 24 1 "audio" false true false true [exClip1]) =
        "librosa" ∧
      processedOf (op_detect_beats true true 24 1 "audio" false true false true [exClip1]) +
          (skippedOf (op_detect_beats true true 24 1 "audio" false true false true [exClip1])).length =
        ([exClip1] : List ClipInput).length) :=
  ⟨rfl, by simp,
    C7_fatal_dependency_check true true 24 1 "audio" true false true [exClip1]
      rfl rfl (by simp)⟩

/-- Counterexample to C8 as stated: with BeatNet available and used, the
result's engine field is the literal "BeatNet", not "high-accuracy". -/
theorem C8_counterexample :
    engineOf (op_detect_beats true true 24 1 "audio" true true false true
        [exClip1]) = "BeatNet" ∧
    engineOf (op_detect_beats true true 24 1 "audio" true true false true
        [exClip1]) ≠ "high-accuracy" := by
  constructor <;> decide

/-- C8 amended: the engine field equals "BeatNet" when the BeatNet adapter
was used and "librosa" when the librosa fallback was used (the code never
emits "high-accuracy" / "fallback"). -/
theorem C8_engine_reporting_amended (pO tA : Bool) (fps : ℚ) (track : ℤ)
    (ttype : String) (bA mB mD : Bool) (clips : List ClipInput)
    (hp : pO = true) (ht : tA = true) (hne : clips ≠ []) :
    engineOf (op_detect_beats pO tA fps track ttype bA true mB mD clips) =
      if bA then "BeatNet" else "librosa" :=
  engineOf_op pO tA fps track ttype bA mB mD clips hp ht hne

/-- Witness for the amended C8 with the fallback engine. -/
theorem C8_engine_reporting_amended_witness :
    (true = true) ∧ ([exClip1] : List ClipInput) ≠ [] ∧
    engineOf (op_detect_beats true true 24 1 "audio" false true false true
        [exClip1]) = (if false then "BeatNet" else "librosa") :=
  ⟨rfl, by simp,
    C8_engine_reporting_amended true true 24 1 "audio" false false true
      [exClip1] rfl rfl (by simp)⟩

/-- Counterexample to C9 as stated: in the BeatNet (high-accuracy) path a
zero-duration clip is NOT skipped with "zero duration" — it is counted as
processed and the skip list stays empty (the zero-duration guard exists
only in the librosa fallback branch). -/
theorem C9_counterexample :
    processedOf (op_detect_beats true true 24 1 "audio" true true false true
        [exZeroClip48]) = 1 ∧
    skippedOf (op_detect_beats true true 24 1 "audio" true true false true
        [exZeroClip48]) = [] := by
  constructor <;> decide

/-- C9 amended: when the librosa fallback engine is in use, a clip with a
readable file whose derived analysis duration is non-positive is skipped
with reason "zero duration" and contributes nothing to `clips_processed`
(which counts exactly the clips whose skip reason is `none`). -/
theorem C9_zero_duration_fallback (pO tA : Bool) (fps : ℚ) (track : ℤ)
    (ttype : String) (mB mD : Bool) (clips : List ClipInput) (c : ClipInput)
    (hp : pO = true) (ht : tA = true) (hne : clips ≠ []) (hc : c ∈ clips)
    (hpath : pathMissing c.filePath = false) (hex : c.fileExists = true)
    (hdur : ((c.sourceOffset : ℚ) + c.duration) / fps - c.sourceOffset / fps ≤ 0) :
    clipSkipReason false fps c = some "zero duration" ∧
    (⟨c.name, "zero duration"⟩ : SkipEntry) ∈
      skippedOf (op_detect_beats pO tA fps track ttype false true mB mD clips) ∧
    processedOf (op_detect_beats pO tA fps track ttype false true mB mD clips) =
      clips.countP (fun c2 => (clipSkipReason false fps c2).isNone) := by
  have hreason : clipSkipReason false fps c = some "zero duration" := by
    simp [clipSkipReason, hpath, hex, hdur]
  refine ⟨hreason, ?_,
    processedOf_op pO tA fps track ttype false mB mD clips hp ht hne⟩
  rw [skippedOf_op pO tA fps track ttype false mB mD clips hp ht hne]
  exact List.mem_flatMap.mpr ⟨c, hc, by simp [skipEntriesOf, hreason]⟩

/-- Witness for the amended C9 on a concrete zero-duration clip. -/
theorem C9_zero_duration_fallback_witness :
    (true = true) ∧ ([exZeroClip] : List ClipInput) ≠ [] ∧ exZeroClip ∈ [exZeroClip] ∧
    pathMissing exZeroClip.filePath = false ∧ exZeroClip.fileExists = true ∧
    ((exZeroClip.sourceOffset : ℚ) + exZeroClip.duration) / 1 -
        exZeroClip.sourceOffset / 1 ≤ 0 ∧
    (clipSkipReason false 1 exZeroClip = some "zero duration" ∧
      (⟨exZeroClip.name, "zero duration"⟩ : SkipEntry) ∈
        skippedOf (op_detect_beats true true 1 1 "audio" false true true true
          [exZeroClip]) ∧
      processedOf (op_detect_beats true true 1 1 "audio" false true true true
          [exZeroClip]) =
        ([exZeroClip] : List ClipInput).countP
          (fun c2 => (clipSkipReason false 1 c2).isNone)) :=
  ⟨rfl, by simp, List.mem_cons_self _ _, by decide, rfl,
    by norm_num [exZeroClip],
    C9_zero_duration_fallback true true 1 1 "audio" true true [exZeroClip]
      exZeroClip rfl rfl (by simp) (List.mem_cons_self _ _) (by decide) rfl
      (by norm_num [exZeroClip])⟩
